import Mathlib

set_option maxRecDepth 100000

/-!
Verification model of the retrieval subsystem in `knowledge/rag_manager.py`
(RAG knowledge manager: embedding cache, multi-strategy search engine, query
API).  Python floats are modelled as exact rationals (`ℚ`); Python strings as
Lean `String` (a wrapper around `List Char`); Python exceptions (the only one
reachable in the modelled code paths is `ZeroDivisionError`) as
`Except String`.  All definitions are structurally recursive so concrete
instances evaluate by `decide`.
-/

/-! ## Rational arithmetic helpers

`Rat.mul`, `Rat.add` and `Rat.inv` are `@[irreducible]`, so the model uses
its own structurally-reducible versions built from `mkRat`; the bridging
lemmas `qmul_eq_mul`, `qadd_eq_add` and `qdiv_eq_div` show they are exactly
multiplication, addition and division on `ℚ` (with `x / 0 = 0` as the junk
value, standing in for the IEEE nan/inf that numpy produces on a zero
denominator). -/

/-- Multiplication on `ℚ`, structurally reducible. -/
def qmul (a b : ℚ) : ℚ := mkRat (a.num * b.num) (a.den * b.den)

/-- Addition on `ℚ`, structurally reducible. -/
def qadd (a b : ℚ) : ℚ := mkRat (a.num * (b.den : ℤ) + b.num * (a.den : ℤ)) (a.den * b.den)

/-- Division on `ℚ`, structurally reducible; `qdiv a 0 = 0`. -/
def qdiv (a b : ℚ) : ℚ :=
  if 0 ≤ b.num then mkRat (a.num * (b.den : ℤ)) (a.den * b.num.toNat)
  else mkRat (-(a.num * (b.den : ℤ))) (a.den * (-b.num).toNat)

theorem num_cast_eq_mul_den (a : ℚ) : (a.num : ℚ) = a * (a.den : ℚ) := by
  have had : ((a.den : ℚ)) ≠ 0 := by positivity
  exact (div_eq_iff had).mp (Rat.num_div_den a)

theorem qmul_eq_mul (a b : ℚ) : qmul a b = a * b := by
  have had : ((a.den : ℚ)) ≠ 0 := by positivity
  have hbd : ((b.den : ℚ)) ≠ 0 := by positivity
  rw [qmul, Rat.mkRat_eq_div]
  push_cast
  field_simp
  rw [num_cast_eq_mul_den a, num_cast_eq_mul_den b]
  ring

theorem qadd_eq_add (a b : ℚ) : qadd a b = a + b := by
  have had : ((a.den : ℚ)) ≠ 0 := by positivity
  have hbd : ((b.den : ℚ)) ≠ 0 := by positivity
  rw [qadd, Rat.mkRat_eq_div]
  push_cast
  field_simp
  rw [num_cast_eq_mul_den a, num_cast_eq_mul_den b]
  ring

theorem qdiv_eq_div (a b : ℚ) : qdiv a b = a / b := by
  have had : ((a.den : ℚ)) ≠ 0 := by positivity
  have hbd : ((b.den : ℚ)) ≠ 0 := by positivity
  rcases lt_trichotomy b.num 0 with hb | hb | hb
  · have hbne : b ≠ 0 := Rat.num_ne_zero.mp (by omega)
    have htn : (((-b.num).toNat : ℕ) : ℚ) = -(b.num : ℚ) := by
      rw [← Int.cast_natCast, Int.toNat_of_nonneg (by omega : (0:ℤ) ≤ -b.num)]
      push_cast
      ring
    rw [qdiv, if_neg (not_le.mpr hb), Rat.mkRat_eq_div]
    push_cast
    rw [htn]
    field_simp
    rw [num_cast_eq_mul_den a, num_cast_eq_mul_den b]
    ring
  · have hb0 : b = 0 := Rat.num_eq_zero.mp hb
    subst hb0
    rw [qdiv]
    simp [Rat.mkRat_eq_div]
  · have hbne : b ≠ 0 := Rat.num_ne_zero.mp (by omega)
    have htn : ((b.num.toNat : ℕ) : ℚ) = (b.num : ℚ) := by
      rw [← Int.cast_natCast, Int.toNat_of_nonneg (le_of_lt hb)]
    rw [qdiv, if_pos (le_of_lt hb), Rat.mkRat_eq_div]
    push_cast
    rw [htn]
    field_simp
    rw [num_cast_eq_mul_den a, num_cast_eq_mul_den b]
    ring

/-- Structural integer square root: the largest `k ≤ fuel` with `k * k ≤ n`. -/
def sqrtAux : ℕ → ℕ → ℕ
  | 0, _ => 0
  | k + 1, n => if (k + 1) * (k + 1) ≤ n then k + 1 else sqrtAux k n

/-- Integer square root (structurally recursive, unlike `Nat.sqrt`). -/
def natSqrt (n : ℕ) : ℕ := sqrtAux n n

theorem sqrtAux_sq_le (fuel n : ℕ) : sqrtAux fuel n * sqrtAux fuel n ≤ n := by
  induction fuel with
  | zero => simp [sqrtAux]
  | succ k ih =>
    rw [sqrtAux]
    split
    · assumption
    · exact ih

theorem le_sqrtAux (fuel n m : ℕ) (hsq : m * m ≤ n) : m ≤ fuel → m ≤ sqrtAux fuel n := by
  induction fuel with
  | zero => intro hm; omega
  | succ k ih =>
    intro hm
    rw [sqrtAux]
    split
    next hc => omega
    next hc =>
      rcases Nat.eq_or_lt_of_le hm with h | h
      · subst h
        exact absurd hsq hc
      · exact ih (by omega)

/-- On a perfect square, `natSqrt` is exact. -/
theorem natSqrt_mul_self (k : ℕ) : natSqrt (k * k) = k := by
  rcases Nat.eq_zero_or_pos k with hk | hk
  · subst hk; decide
  · have h1 : natSqrt (k * k) * natSqrt (k * k) ≤ k * k := sqrtAux_sq_le (k * k) (k * k)
    have hkk : k ≤ k * k := Nat.le_mul_of_pos_left k hk
    have h2 : k ≤ natSqrt (k * k) := le_sqrtAux (k * k) (k * k) k le_rfl hkk
    have h3 : natSqrt (k * k) ≤ k := by
      by_contra hlt
      push_neg at hlt
      have hs : k + 1 ≤ natSqrt (k * k) := hlt
      have hss := Nat.mul_le_mul hs hs
      nlinarith [h1, hss]
    omega

/-- Model of the real square root used by `np.linalg.norm`; exact on
rationals whose numerator and denominator are perfect squares (the only
inputs used in the concrete instances below). -/
def ratSqrt (q : ℚ) : ℚ := mkRat (natSqrt q.num.toNat : ℤ) (natSqrt q.den)

/-- Model of `np.dot` on two 1-D vectors. -/
def dotQ (a b : List ℚ) : ℚ := (List.zipWith qmul a b).foldl qadd 0

/-- Model of `np.linalg.norm` (Euclidean norm). -/
def normQ (v : List ℚ) : ℚ := ratSqrt ((v.map (fun x => qmul x x)).foldl qadd 0)

/-- Spec-side definition (`cosine similarity: dot product divided by the
product of the two vector norms`), written from the spec's words for the
refinement claim C4. -/
def cosineSimilaritySpec (a b : List ℚ) : ℚ := qdiv (dotQ a b) (qmul (normQ a) (normQ b))

/-! ## Python string primitives

Modelled over `String.data : List Char` so they are structurally recursive. -/

/-- Model of Python list/str containment step: does `hay` start with `needle`? -/
def charsStartWith : List Char → List Char → Bool
  | [], _ => true
  | _ :: _, [] => false
  | a :: as, b :: bs => a == b && charsStartWith as bs

/-- Model of Python `needle in hay` on strings (substring test; the empty
needle is contained in everything, exactly as in Python). -/
def charsContains (needle : List Char) : List Char → Bool
  | [] => charsStartWith needle []
  | c :: t => charsStartWith needle (c :: t) || charsContains needle t

/-- Python `needle in hay` for `String`. -/
def strIn (needle hay : String) : Bool := charsContains needle.data hay.data

/-- Python `str.lower()` (ASCII range, which is all the corpus uses). -/
def strToLower (s : String) : String := ⟨s.data.map Char.toLower⟩

/-- Helper for `pySplit`: accumulates the current word (reversed). -/
def splitWsAux : List Char → List Char → List String
  | [], cur => if cur.isEmpty then [] else [⟨cur.reverse⟩]
  | c :: cs, cur =>
    if c.isWhitespace then
      if cur.isEmpty then splitWsAux cs [] else ⟨cur.reverse⟩ :: splitWsAux cs []
    else splitWsAux cs (c :: cur)

/-- Python `str.split()` with no argument: split on whitespace runs,
dropping empty pieces. -/
def pySplit (s : String) : List String := splitWsAux s.data []

/-- Model of Python `set(...)` construction followed by iteration: the
distinct elements, first occurrence first (iteration order of the set does
not matter to any use below, which only counts or tests membership). -/
def dedupFirstAux : List String → List String → List String
  | [], _ => []
  | x :: xs, seen => if x ∈ seen then dedupFirstAux xs seen else x :: dedupFirstAux xs (x :: seen)

/-- Distinct elements of a list of strings, in first-occurrence order. -/
def dedupFirst (l : List String) : List String := dedupFirstAux l []

/-- Python slice `l[:k]` including negative-`k` semantics: a negative `k`
keeps all but the last `|k|` elements. -/
def pySlice {α : Type} (k : ℤ) (l : List α) : List α :=
  if 0 ≤ k then l.take k.toNat else l.take ((l.length : ℤ) + k).toNat

/-! ## MD5 and the embedding cache

`EmbeddingCache._get_cache_key` is `hashlib.md5(text.encode('utf-8')).hexdigest()`.
The UTF-8 encoder and the full MD5 digest are implemented below over `ℕ`
bytes/words (32-bit arithmetic is explicit `% 4294967296`). -/

/-- UTF-8 encoding of one character (Python `str.encode('utf-8')`). -/
def utf8EncodeCharBytes (c : Char) : List ℕ :=
  let n := c.toNat
  if n < 128 then [n]
  else if n < 2048 then [192 ||| (n >>> 6), 128 ||| (n &&& 63)]
  else if n < 65536 then
    [224 ||| (n >>> 12), 128 ||| ((n >>> 6) &&& 63), 128 ||| (n &&& 63)]
  else
    [240 ||| (n >>> 18), 128 ||| ((n >>> 12) &&& 63),
     128 ||| ((n >>> 6) &&& 63), 128 ||| (n &&& 63)]

/-- Python `text.encode('utf-8')` as a byte list. -/
def utf8Bytes (s : String) : List ℕ := (s.data.map utf8EncodeCharBytes).flatten

/-- 32-bit left rotate. -/
def rotl32 (x s : ℕ) : ℕ := ((x <<< s) % 4294967296) ||| (x >>> (32 - s))

/-- MD5 per-round constants `K[i] = floor(2^32 * |sin(i+1)|)`. -/
def md5K : List ℕ :=
  [3614090360, 3905402710, 606105819, 3250441966, 4118548399, 1200080426, 2821735955,
   4249261313, 1770035416, 2336552879, 4294925233, 2304563134, 1804603682, 4254626195,
   2792965006, 1236535329, 4129170786, 3225465664, 643717713, 3921069994, 3593408605,
   38016083, 3634488961, 3889429448, 568446438, 3275163606, 4107603335, 1163531501,
   2850285829, 4243563512, 1735328473, 2368359562, 4294588738, 2272392833, 1839030562,
   4259657740, 2763975236, 1272893353, 4139469664, 3200236656, 681279174, 3936430074,
   3572445317, 76029189, 3654602809, 3873151461, 530742520, 3299628645, 4096336452,
   1126891415, 2878612391, 4237533241, 1700485571, 2399980690, 4293915773, 2240044497,
   1873313359, 4264355552, 2734768916, 1309151649, 4149444226, 3174756917, 718787259,
   3951481745]

/-- MD5 per-round shift amounts. -/
def md5S : List ℕ :=
  [7, 12, 17, 22, 7, 12, 17, 22, 7, 12, 17, 22, 7, 12, 17, 22,
   5, 9, 14, 20, 5, 9, 14, 20, 5, 9, 14, 20, 5, 9, 14, 20,
   4, 11, 16, 23, 4, 11, 16, 23, 4, 11, 16, 23, 4, 11, 16, 23,
   6, 10, 15, 21, 6, 10, 15, 21, 6, 10, 15, 21, 6, 10, 15, 21]

/-- Little-endian byte serialization of `n` into `k` bytes. -/
def toLEBytes : ℕ → ℕ → List ℕ
  | 0, _ => []
  | k + 1, n => (n % 256) :: toLEBytes k (n / 256)

/-- MD5 message padding: `0x80`, zeros to 56 mod 64, then the 64-bit
little-endian bit length. -/
def md5Pad (msg : List ℕ) : List ℕ :=
  let len := msg.length
  let padLen := (119 - (len % 64)) % 64
  msg ++ [128] ++ List.replicate padLen 0 ++ toLEBytes 8 ((len * 8) % 18446744073709551616)

/-- Split into 64-byte chunks (the fuel argument makes this structural). -/
def chunksAux : ℕ → List ℕ → List (List ℕ)
  | 0, _ => []
  | _, [] => []
  | fuel + 1, l => l.take 64 :: chunksAux fuel (l.drop 64)

/-- 64-byte chunks of a byte list. -/
def chunks64 (l : List ℕ) : List (List ℕ) := chunksAux l.length l

/-- 32-bit little-endian words of a chunk. -/
def leWords : List ℕ → List ℕ
  | b0 :: b1 :: b2 :: b3 :: rest =>
    (b0 + 256 * b1 + 65536 * b2 + 16777216 * b3) :: leWords rest
  | _ => []

/-- One MD5 round: state `(a, b, c, d)`, round index `i`. -/
def md5Round (m : List ℕ) (st : ℕ × ℕ × ℕ × ℕ) (i : ℕ) : ℕ × ℕ × ℕ × ℕ :=
  let a := st.1
  let b := st.2.1
  let c := st.2.2.1
  let d := st.2.2.2
  let fg : ℕ × ℕ :=
    if i < 16 then ((b &&& c) ||| ((b ^^^ 4294967295) &&& d), i)
    else if i < 32 then ((d &&& b) ||| ((d ^^^ 4294967295) &&& c), (5 * i + 1) % 16)
    else if i < 48 then (b ^^^ c ^^^ d, (3 * i + 5) % 16)
    else (c ^^^ (b ||| (d ^^^ 4294967295)), (7 * i) % 16)
  let f := (fg.1 + a + md5K.getD i 0 + m.getD fg.2 0) % 4294967296
  (d, (b + rotl32 f (md5S.getD i 0)) % 4294967296, b, c)

/-- Process one 64-byte chunk. -/
def md5ProcessChunk (h : ℕ × ℕ × ℕ × ℕ) (chunk : List ℕ) : ℕ × ℕ × ℕ × ℕ :=
  let m := leWords chunk
  let r := (List.range 64).foldl (md5Round m) h
  ((h.1 + r.1) % 4294967296, (h.2.1 + r.2.1) % 4294967296,
   (h.2.2.1 + r.2.2.1) % 4294967296, (h.2.2.2 + r.2.2.2) % 4294967296)

/-- The 16 MD5 digest bytes of a message. -/
def md5DigestBytes (msg : List ℕ) : List ℕ :=
  let h := (chunks64 (md5Pad msg)).foldl md5ProcessChunk
    (1732584193, 4023233417, 2562383102, 271733878)
  toLEBytes 4 h.1 ++ toLEBytes 4 h.2.1 ++ toLEBytes 4 h.2.2.1 ++ toLEBytes 4 h.2.2.2

/-- A nibble as a lowercase hex character. -/
def hexDigit (n : ℕ) : Char := if n < 10 then Char.ofNat (48 + n) else Char.ofNat (87 + n)

/-- Lowercase hex string of a byte list (`.hexdigest()`). -/
def hexString (bytes : List ℕ) : String :=
  ⟨(bytes.map (fun b => [hexDigit (b / 16), hexDigit (b % 16)])).flatten⟩

/-- Model of `hashlib.md5(...).hexdigest()` on a byte list. -/
def md5Hex (bytes : List ℕ) : String := hexString (md5DigestBytes bytes)

example : md5Hex (utf8Bytes "") = "d41d8cd98f00b204e9800998ecf8427e" := by decide
example : md5Hex (utf8Bytes "abc") = "900150983cd24fb0d6963f7d28e17f72" := by decide


/-- Embedding result cache (`EmbeddingCache`).  `cache` is the in-memory
dict (association list with unique keys, insertion order preserved —
Python dict semantics); `persisted` is the content of the durable pickle
file that `_save_cache` writes (`save`/the every-10th-size flush assign
`cache` to it wholesale). -/
structure EmbeddingCache where
  cache : List (String × List ℚ)
  persisted : List (String × List ℚ)
deriving DecidableEq

/-- Model of `EmbeddingCache._get_cache_key`:
`hashlib.md5(text.encode('utf-8')).hexdigest()`. -/
def EmbeddingCache.get_cache_key (text : String) : String := md5Hex (utf8Bytes text)

/-- First-match association lookup (Python `dict.get`). -/
def lookupAssoc : List (String × List ℚ) → String → Option (List ℚ)
  | [], _ => none
  | (k, v) :: rest, key => if k = key then some v else lookupAssoc rest key

/-- Python `dict[key] = value`: overwrite in place if the key exists
(keeping its position), else append. -/
def replaceOrAppend : List (String × List ℚ) → String → List ℚ → List (String × List ℚ)
  | [], k, v => [(k, v)]
  | (k0, v0) :: rest, k, v =>
    if k0 = k then (k, v) :: rest else (k0, v0) :: replaceOrAppend rest k v

/-- Model of `EmbeddingCache.get`. -/
def EmbeddingCache.get (c : EmbeddingCache) (text : String) : Option (List ℚ) :=
  lookupAssoc c.cache (EmbeddingCache.get_cache_key text)

/-- Model of `EmbeddingCache.set`: insert, then flush to durable storage
when the updated dict's size is a multiple of 10 (the source tests
`len(self.cache) % 10 == 0` after insertion, not an insertion counter). -/
def EmbeddingCache.set (c : EmbeddingCache) (text : String) (embedding : List ℚ) :
    EmbeddingCache :=
  let newCache := replaceOrAppend c.cache (EmbeddingCache.get_cache_key text) embedding
  if newCache.length % 10 = 0 then { cache := newCache, persisted := newCache }
  else { c with cache := newCache }

/-- Model of `EmbeddingCache.save` (explicit flush). -/
def EmbeddingCache.save (c : EmbeddingCache) : EmbeddingCache := { c with persisted := c.cache }


/-! ## Data model (`APIDocEntry`, `SearchResult`, dataclasses of the source) -/

/-- Single API documentation entry (`APIDocEntry` dataclass).  The Python
field `example` is a Lean keyword and is rendered `example_`; `parameters`
(a `Dict[str, str]`) is an association list; the optional numpy embedding
vector is an optional list of rationals. -/
structure APIDocEntry where
  api_name : String
  library : String
  signature : String
  description : String
  parameters : List (String × String)
  returns : String
  example_ : String
  usage_context : String
  related_apis : List String
  common_pitfalls : String
  embedding : Option (List ℚ) := none
deriving DecidableEq

/-- Search result entry (`SearchResult` dataclass). -/
structure SearchResult where
  api_doc : APIDocEntry
  similarity_score : ℚ
  match_type : String
deriving DecidableEq

/-! ## Stable descending sort

Python `list.sort(key=lambda x: x.similarity_score, reverse=True)` is a
stable descending sort; a stable sort's output is unique, so the
structurally recursive insertion sort below computes exactly what Timsort
computes on these lists. -/

/-- Stable descending insert: `r` goes in front of the first element whose
score is `≤` its own (so earlier equal-scored elements stay in front). -/
def insertDesc (r : SearchResult) : List SearchResult → List SearchResult
  | [] => [r]
  | x :: xs =>
    if x.similarity_score ≤ r.similarity_score then r :: x :: xs
    else x :: insertDesc r xs

/-- Stable sort by `similarity_score` descending. -/
def sortDesc (l : List SearchResult) : List SearchResult := l.foldr insertDesc []

/-! ## The RAG manager state -/

/-- State of a `RAGManager` instance.  The sentence-transformer model object
is represented by its embed function `String → List ℚ` (`None` while not
loaded / failed to load); `knowledge_base_dir`, logging and the lazy-load
machinery of `SentenceTransformer` are represented by the `loader` argument
threaded to the functions that call `_init_embedding_model` (the value that
a load attempt would produce: `none` models a load failure). -/
structure RAGManager where
  api_docs : List APIDocEntry
  embedding_model : Option (String → List ℚ)
  embedding_cache : EmbeddingCache

/-- Model of `RAGManager._init_embedding_model`: on first use, try to load
the model; a failed load leaves `embedding_model = None`. -/
def RAGManager.init_embedding_model (loader : Option (String → List ℚ)) (st : RAGManager) :
    RAGManager :=
  match st.embedding_model with
  | some _ => st
  | none => { st with embedding_model := loader }

/-- The per-document body of `_semantic_search`: every document with a
precomputed embedding contributes one result whose score is
`np.dot(qe, e) / (norm(qe) * norm(e))` — with no zero-norm guard, exactly
as in the source. -/
def semanticCandidates (qe : List ℚ) : List APIDocEntry → List SearchResult
  | [] => []
  | d :: rest =>
    match d.embedding with
    | some e => ⟨d, qdiv (dotQ qe e) (qmul (normQ qe) (normQ e)), "semantic"⟩ ::
        semanticCandidates qe rest
    | none => semanticCandidates qe rest

/-- Model of `RAGManager._semantic_search` (returns the possibly-updated
state, since `_init_embedding_model` mutates `self.embedding_model`).  When
the model is unavailable it returns `[]`; its internal `try/except` has no
reachable failure in the model (all operations are total). -/
def RAGManager.semantic_search (loader : Option (String → List ℚ)) (st : RAGManager)
    (query : String) (top_k : ℤ) : RAGManager × List SearchResult :=
  let st1 := RAGManager.init_embedding_model loader st
  match st1.embedding_model with
  | none => (st1, [])
  | some f => (st1, pySlice top_k (sortDesc (semanticCandidates (f query) st1.api_docs)))

/-- The keyword match count of `_keyword_search`: each distinct query token
found as a substring of the search text counts 1, plus 1 more if it also
occurs inside the lowercased api name. -/
def countMatches (query_words : List String) (search_text api_lower : String) : ℕ :=
  query_words.foldl
    (fun m w =>
      if strIn w search_text then (if strIn w api_lower then m + 2 else m + 1) else m) 0

/-- The per-document body of `_keyword_search`: documents with at least one
match score `matches / len(query_words)`. -/
def keywordScan (query_words : List String) : List APIDocEntry → List SearchResult
  | [] => []
  | d :: rest =>
    let search_text := strToLower (d.api_name ++ " " ++ d.description ++ " " ++ d.signature)
    let mcount := countMatches query_words search_text (strToLower d.api_name)
    if 0 < mcount then
      ⟨d, qdiv (mcount : ℚ) (query_words.length : ℚ), "keyword"⟩ :: keywordScan query_words rest
    else keywordScan query_words rest

/-- Model of `RAGManager._keyword_search`. -/
def RAGManager.keyword_search (st : RAGManager) (query : String) (top_k : ℤ) :
    List SearchResult :=
  let query_words := dedupFirst (pySplit (strToLower query))
  pySlice top_k (sortDesc (keywordScan query_words st.api_docs))

/-- The per-document body of `_context_search`.  A document is a candidate
when the whole lowercased query is a substring of its usage context or some
query token is; the score divides by `len(query_lower.split())`, which
raises `ZeroDivisionError` when the query has no tokens (the candidate
condition is then still satisfied by every document, because the empty
string is a substring of everything). -/
def contextScan (query_lower : String) (qtoks : List String) :
    List APIDocEntry → Except String (List SearchResult)
  | [] => Except.ok []
  | d :: rest =>
    let context_text := strToLower d.usage_context
    if strIn query_lower context_text || qtoks.any (fun w => strIn w context_text) then
      if qtoks.length = 0 then Except.error "ZeroDivisionError"
      else
        Except.map
          (fun l =>
            ⟨d, qdiv (((dedupFirst qtoks).filter
                  (fun w => (pySplit context_text).contains w)).length : ℚ)
                (qtoks.length : ℚ), "context"⟩ :: l)
          (contextScan query_lower qtoks rest)
    else contextScan query_lower qtoks rest

/-- Model of `RAGManager._context_search`. -/
def RAGManager.context_search (st : RAGManager) (query : String) (top_k : ℤ) :
    Except String (List SearchResult) :=
  Except.map (fun results => pySlice top_k (sortDesc results))
    (contextScan (strToLower query) (pySplit (strToLower query)) st.api_docs)

/-- The fusion loop of `search_apis`: one pass over the concatenated
candidates keeping a result iff its `api_name` has not already been kept
AND its score is `≥ min_similarity` (a rejected result does not mark its
name as seen — this is the loop of the source, lines 234–239). -/
def fuseResults (min_similarity : ℚ) : List SearchResult → List String → List SearchResult
  | [], _ => []
  | r :: rs, seen =>
    if r.api_doc.api_name ∉ seen ∧ min_similarity ≤ r.similarity_score then
      r :: fuseResults min_similarity rs (r.api_doc.api_name :: seen)
    else fuseResults min_similarity rs seen

/-- Model of `RAGManager.search_apis`: semantic (over-fetching `2·top_k`),
keyword and context strategies, concatenated in that order, fused, sorted
descending, truncated to `top_k`.  A `ZeroDivisionError` raised by the
context strategy propagates. -/
def RAGManager.search_apis (loader : Option (String → List ℚ)) (st : RAGManager)
    (query : String) (top_k : ℤ) (min_similarity : ℚ) :
    RAGManager × Except String (List SearchResult) :=
  if st.api_docs.isEmpty then (st, Except.ok [])
  else
    match RAGManager.context_search (RAGManager.semantic_search loader st query (top_k * 2)).1
        query top_k with
    | Except.error e => ((RAGManager.semantic_search loader st query (top_k * 2)).1,
        Except.error e)
    | Except.ok context_results =>
      ((RAGManager.semantic_search loader st query (top_k * 2)).1,
       Except.ok (pySlice top_k (sortDesc (fuseResults min_similarity
         ((RAGManager.semantic_search loader st query (top_k * 2)).2 ++
          RAGManager.keyword_search (RAGManager.semantic_search loader st query (top_k * 2)).1
            query top_k ++
          context_results) []))))

/-- Model of `RAGManager.get_api_by_name`: linear scan, first match. -/
def RAGManager.get_api_by_name (st : RAGManager) (api_name : String) : Option APIDocEntry :=
  st.api_docs.find? (fun d => d.api_name == api_name)

/-- The accumulation loop of `get_related_apis`. -/
def relatedScan (st : RAGManager) : List String → List APIDocEntry
  | [] => []
  | n :: rest =>
    match RAGManager.get_api_by_name st n with
    | some related_api => related_api :: relatedScan st rest
    | none => relatedScan st rest

/-- Model of `RAGManager.get_related_apis`. -/
def RAGManager.get_related_apis (st : RAGManager) (api_name : String) : List APIDocEntry :=
  match RAGManager.get_api_by_name st api_name with
  | none => []
  | some api_doc => relatedScan st api_doc.related_apis

example : pySplit "  alpha  beta " = ["alpha", "beta"] := by decide
example : pySplit "" = [] := by decide
example : strIn "" "xyz" = true := by decide
example : strIn "pha" "alpha" = true := by decide
example : strToLower "AbC" = "abc" := by decide
example : qdiv (mkRat 7 1) (mkRat 25 1) = mkRat 7 25 := by decide
example : natSqrt 625 = 25 := by decide
example : normQ [mkRat 3 1, mkRat 4 1] = mkRat 5 1 := by decide

/-! ## Lemmas about the building blocks -/

/-- Descending-score order between two search results. -/
def scoreGE (a b : SearchResult) : Prop := b.similarity_score ≤ a.similarity_score

theorem insertDesc_perm (r : SearchResult) (l : List SearchResult) :
    List.Perm (insertDesc r l) (r :: l) := by
  induction l with
  | nil => exact List.Perm.refl _
  | cons x xs ih =>
    rw [insertDesc]
    split
    · exact List.Perm.refl _
    · exact (List.Perm.cons x ih).trans (List.Perm.swap r x xs)

theorem sortDesc_perm (l : List SearchResult) : List.Perm (sortDesc l) l := by
  induction l with
  | nil => exact List.Perm.refl _
  | cons x xs ih =>
    simp only [sortDesc, List.foldr_cons]
    exact (insertDesc_perm x (List.foldr insertDesc [] xs)).trans (List.Perm.cons x ih)

theorem insertDesc_pairwise (r : SearchResult) (l : List SearchResult)
    (h : List.Pairwise scoreGE l) : List.Pairwise scoreGE (insertDesc r l) := by
  induction l with
  | nil => simp [insertDesc, scoreGE]
  | cons x xs ih =>
    cases h with
    | cons hx hxs =>
      rw [insertDesc]
      split
      next hcond =>
        refine List.Pairwise.cons ?_ (List.Pairwise.cons hx hxs)
        intro y hy
        cases hy with
        | head => exact hcond
        | tail _ hy => exact le_trans (hx y hy) hcond
      next hcond =>
        refine List.Pairwise.cons ?_ (ih hxs)
        intro y hy
        have hmem : y ∈ r :: xs := (insertDesc_perm r xs).mem_iff.mp hy
        cases hmem with
        | head => exact le_of_lt (lt_of_not_le hcond)
        | tail _ hy2 => exact hx y hy2

theorem sortDesc_pairwise (l : List SearchResult) : List.Pairwise scoreGE (sortDesc l) := by
  induction l with
  | nil => simp [sortDesc]
  | cons x xs ih =>
    simp only [sortDesc, List.foldr_cons]
    exact insertDesc_pairwise x _ ih

theorem pySlice_sublist {α : Type} (k : ℤ) (l : List α) : List.Sublist (pySlice k l) l := by
  rw [pySlice]
  split <;> exact List.take_sublist _ _

theorem pySlice_length_nonneg {α : Type} (k : ℤ) (hk : 0 ≤ k) (l : List α) :
    (pySlice k l).length ≤ k.toNat := by
  rw [pySlice, if_pos hk, List.length_take]
  exact Nat.min_le_left _ _

theorem pySlice_length_neg {α : Type} (k : ℤ) (hk : k < 0) (l : List α) :
    (pySlice k l).length = ((l.length : ℤ) + k).toNat := by
  rw [pySlice, if_neg (not_le.mpr hk), List.length_take]
  omega

theorem pySlice_ne_nil {α : Type} (k : ℤ) (hk : 1 ≤ k) (l : List α) (hl : l ≠ []) :
    pySlice k l ≠ [] := by
  rw [pySlice, if_pos (by omega : (0:ℤ) ≤ k)]
  intro h
  rcases List.take_eq_nil_iff.mp h with h1 | h1
  · omega
  · exact hl h1

theorem fuse_min_le (m : ℚ) (l : List SearchResult) (seen : List String) :
    ∀ r ∈ fuseResults m l seen, m ≤ r.similarity_score := by
  induction l generalizing seen with
  | nil => intro r hr; simp [fuseResults] at hr
  | cons x xs ih =>
    intro r hr
    rw [fuseResults] at hr
    split at hr
    next hcond =>
      cases hr with
      | head => exact hcond.2
      | tail _ hr => exact ih _ r hr
    next => exact ih _ r hr

theorem fuse_notin_seen (m : ℚ) (l : List SearchResult) (seen : List String) :
    ∀ r ∈ fuseResults m l seen, r.api_doc.api_name ∉ seen := by
  induction l generalizing seen with
  | nil => intro r hr; simp [fuseResults] at hr
  | cons x xs ih =>
    intro r hr
    rw [fuseResults] at hr
    split at hr
    next hcond =>
      cases hr with
      | head => exact hcond.1
      | tail _ hr =>
        intro hmem
        exact ih (x.api_doc.api_name :: seen) r hr (List.mem_cons_of_mem _ hmem)
    next => exact ih seen r hr

theorem fuse_names_nodup (m : ℚ) (l : List SearchResult) (seen : List String) :
    ((fuseResults m l seen).map (fun r => r.api_doc.api_name)).Nodup := by
  induction l generalizing seen with
  | nil => simp [fuseResults]
  | cons x xs ih =>
    rw [fuseResults]
    split
    next hcond =>
      simp only [List.map_cons, List.nodup_cons]
      refine ⟨?_, ih _⟩
      intro hmem
      rcases List.mem_map.mp hmem with ⟨r, hr, hname⟩
      exact fuse_notin_seen m xs _ r hr (by rw [hname]; exact List.mem_cons_self _ _)
    next => exact ih _

theorem fuse_subset (m : ℚ) (l : List SearchResult) (seen : List String) :
    ∀ r ∈ fuseResults m l seen, r ∈ l := by
  induction l generalizing seen with
  | nil => intro r hr; simp [fuseResults] at hr
  | cons x xs ih =>
    intro r hr
    rw [fuseResults] at hr
    split at hr
    next =>
      cases hr with
      | head => exact List.mem_cons_self _ _
      | tail _ hr => exact List.mem_cons_of_mem _ (ih _ r hr)
    next => exact List.mem_cons_of_mem _ (ih seen r hr)

theorem fuse_eq_nil_all_fail (m : ℚ) (l : List SearchResult) (seen : List String) :
    fuseResults m l seen = [] →
      ∀ r ∈ l, r.api_doc.api_name ∈ seen ∨ r.similarity_score < m := by
  induction l generalizing seen with
  | nil => intro _ r hr; cases hr
  | cons x xs ih =>
    intro h
    rw [fuseResults] at h
    split at h
    next => exact absurd h (List.cons_ne_nil _ _)
    next hcond =>
      push_neg at hcond
      intro r hr
      cases hr with
      | head =>
        by_cases hn : x.api_doc.api_name ∈ seen
        · exact Or.inl hn
        · exact Or.inr (hcond hn)
      | tail _ hr => exact ih seen h r hr

theorem fuse_keeps_first_passing (m : ℚ) (e : SearchResult) (l1 l2 : List SearchResult)
    (seen : List String) (hseen : e.api_doc.api_name ∉ seen)
    (hfirst : ∀ x ∈ l1, x.api_doc.api_name = e.api_doc.api_name → x.similarity_score < m)
    (hpass : m ≤ e.similarity_score) :
    e ∈ fuseResults m (l1 ++ e :: l2) seen := by
  induction l1 generalizing seen with
  | nil =>
    rw [List.nil_append, fuseResults, if_pos ⟨hseen, hpass⟩]
    exact List.mem_cons_self _ _
  | cons x xs ih =>
    rw [List.cons_append, fuseResults]
    split
    next hcond =>
      have hxname : x.api_doc.api_name ≠ e.api_doc.api_name := by
        intro heq
        exact absurd hcond.2 (not_le.mpr (hfirst x (List.mem_cons_self _ _) heq))
      refine List.mem_cons_of_mem _ (ih _ ?_ ?_)
      · intro hmem
        rcases List.mem_cons.mp hmem with heq | hmem2
        · exact hxname heq.symm
        · exact hseen hmem2
      · intro y hy hyn
        exact hfirst y (List.mem_cons_of_mem _ hy) hyn
    next =>
      exact ih seen hseen (fun y hy hyn => hfirst y (List.mem_cons_of_mem _ hy) hyn)

theorem contextScan_ok (qlow : String) (qtoks : List String) (docs : List APIDocEntry)
    (hq : qtoks ≠ []) : ∃ res, contextScan qlow qtoks docs = Except.ok res := by
  induction docs with
  | nil => exact ⟨[], rfl⟩
  | cons d rest ih =>
    rcases ih with ⟨res, hres⟩
    rw [contextScan]
    split
    · rw [if_neg (fun h => hq (List.length_eq_zero.mp h)), hres]
      exact ⟨_, rfl⟩
    · exact ⟨res, hres⟩

theorem keywordScan_nil_words (docs : List APIDocEntry) : keywordScan [] docs = [] := by
  induction docs with
  | nil => rfl
  | cons d rest ih =>
    rw [keywordScan]
    simpa [countMatches] using ih

theorem keyword_search_token_nonempty (st : RAGManager) (query : String) (top_k : ℤ)
    (r : SearchResult) (hr : r ∈ RAGManager.keyword_search st query top_k) :
    pySplit (strToLower query) ≠ [] := by
  intro h
  rw [RAGManager.keyword_search, h] at hr
  rw [show dedupFirst [] = [] from rfl, keywordScan_nil_words] at hr
  simp [pySlice, sortDesc] at hr

theorem keyword_search_docs_nonempty (st : RAGManager) (query : String) (top_k : ℤ)
    (r : SearchResult) (hr : r ∈ RAGManager.keyword_search st query top_k)
    (h : st.api_docs = []) : False := by
  rw [RAGManager.keyword_search, h] at hr
  simp [keywordScan, pySlice, sortDesc] at hr

theorem init_embedding_model_fields (loader : Option (String → List ℚ)) (st : RAGManager) :
    (RAGManager.init_embedding_model loader st).api_docs = st.api_docs ∧
    (RAGManager.init_embedding_model loader st).embedding_cache = st.embedding_cache := by
  cases hm : st.embedding_model <;> simp [RAGManager.init_embedding_model, hm]

theorem init_embedding_model_none (st : RAGManager) (h : st.embedding_model = none) :
    RAGManager.init_embedding_model none st = st := by
  obtain ⟨docs, em, cache⟩ := st
  have hem : em = none := h
  subst hem
  rfl

theorem semantic_search_unavailable (st : RAGManager) (query : String) (top_k : ℤ)
    (hm : st.embedding_model = none) :
    RAGManager.semantic_search none st query top_k = (st, []) := by
  rw [RAGManager.semantic_search, init_embedding_model_none st hm, hm]

/-- When the corpus is non-empty and the context scan succeeds,
`search_apis` returns the fused, sorted, truncated result list. -/
theorem search_apis_ok_form (loader : Option (String → List ℚ)) (st : RAGManager)
    (query : String) (top_k : ℤ) (min_similarity : ℚ) (ctx : List SearchResult)
    (hne : st.api_docs.isEmpty = false)
    (hctx : contextScan (strToLower query) (pySplit (strToLower query))
      (RAGManager.semantic_search loader st query (top_k * 2)).1.api_docs = Except.ok ctx) :
    RAGManager.search_apis loader st query top_k min_similarity =
      ((RAGManager.semantic_search loader st query (top_k * 2)).1,
       Except.ok (pySlice top_k (sortDesc (fuseResults min_similarity
         ((RAGManager.semantic_search loader st query (top_k * 2)).2 ++
          RAGManager.keyword_search (RAGManager.semantic_search loader st query (top_k * 2)).1
            query top_k ++
          pySlice top_k (sortDesc ctx)) [])))) := by
  have hcs : RAGManager.context_search
      (RAGManager.semantic_search loader st query (top_k * 2)).1 query top_k =
      Except.ok (pySlice top_k (sortDesc ctx)) := by
    rw [RAGManager.context_search, hctx]
    rfl
  rw [RAGManager.search_apis, if_neg (by simp [hne]), hcs]

/-- The fused/sorted/truncated pipeline output satisfies the search
contract: bounded length, descending scores, threshold filter, unique
document identifiers. -/
theorem fused_output_props (m : ℚ) (results : List SearchResult) (top_k : ℤ)
    (htk : 0 ≤ top_k) :
    (pySlice top_k (sortDesc (fuseResults m results []))).length ≤ top_k.toNat ∧
    List.Pairwise scoreGE (pySlice top_k (sortDesc (fuseResults m results []))) ∧
    (∀ r ∈ pySlice top_k (sortDesc (fuseResults m results [])), m ≤ r.similarity_score) ∧
    ((pySlice top_k (sortDesc (fuseResults m results []))).map
      (fun r => r.api_doc.api_name)).Nodup := by
  refine ⟨pySlice_length_nonneg top_k htk _, ?_, ?_, ?_⟩
  · exact (sortDesc_pairwise _).sublist (pySlice_sublist _ _)
  · intro r hr
    have h1 : r ∈ sortDesc (fuseResults m results []) := (pySlice_sublist _ _).subset hr
    have h2 : r ∈ fuseResults m results [] := (sortDesc_perm _).mem_iff.mp h1
    exact fuse_min_le _ _ _ r h2
  · have hnd : ((fuseResults m results []).map (fun r => r.api_doc.api_name)).Nodup :=
      fuse_names_nodup _ _ _
    have hnd2 : ((sortDesc (fuseResults m results [])).map
        (fun r => r.api_doc.api_name)).Nodup :=
      (((sortDesc_perm _).map _).nodup_iff).mpr hnd
    exact hnd2.sublist ((pySlice_sublist _ _).map _)

instance {ε α : Type} [DecidableEq ε] [DecidableEq α] : DecidableEq (Except ε α) := fun a b =>
  match a, b with
  | Except.ok x, Except.ok y => decidable_of_iff (x = y) (by simp)
  | Except.ok _, Except.error _ => isFalse (fun hc => by cases hc)
  | Except.error _, Except.ok _ => isFalse (fun hc => by cases hc)
  | Except.error e, Except.error f => decidable_of_iff (e = f) (by simp)

/-! ## Concrete corpora for witnesses and counterexamples -/

/-- Document constructor for the concrete corpora below. -/
def mkDoc (name descr sig ctx : String) (rel : List String) (emb : Option (List ℚ)) :
    APIDocEntry :=
  { api_name := name, library := "", signature := sig, description := descr,
    parameters := [], returns := "", example_ := "", usage_context := ctx,
    related_apis := rel, common_pitfalls := "", embedding := emb }

/-- Fresh empty embedding cache. -/
def emptyCache : EmbeddingCache := { cache := [], persisted := [] }

/-- One-document corpus, no embeddings, model never loaded. -/
def exStC1 : RAGManager :=
  { api_docs := [mkDoc "a" "" "" "" [] none], embedding_model := none,
    embedding_cache := emptyCache }

/-- One-document corpus whose name matches the query `alpha`. -/
def exStC1w : RAGManager :=
  { api_docs := [mkDoc "alpha" "" "" "" [] none], embedding_model := none,
    embedding_cache := emptyCache }

/-! ## Claim C1 -/

/-- Claim C1, counterexample to the universal statement: on a non-empty
corpus the empty query (whose lowercased whitespace-split token list is
empty) makes `search_apis` raise `ZeroDivisionError` from the context
strategy instead of returning a sequence, even with non-negative
`top_k = 5` and `min_similarity = 3/10`. -/
theorem search_apis_empty_query_raises :
    (RAGManager.search_apis none exStC1 "" 5 (mkRat 3 10)).2 =
      Except.error "ZeroDivisionError" := by decide

/-- Claim C1 (amended: the query must additionally have a non-empty
lowercased whitespace-split token list — otherwise the context strategy
divides by zero, see `search_apis_empty_query_raises`): for every loaded
corpus, such a query, and non-negative `top_k` and `min_similarity`,
`search_apis` returns a sequence of at most `top_k` results, sorted by
similarity score in descending order, in which every result's score is
`≥ min_similarity` and no two results share the same `api_name`. -/
theorem search_apis_contract (loader : Option (String → List ℚ)) (st : RAGManager)
    (query : String) (top_k : ℤ) (min_similarity : ℚ)
    (htk : 0 ≤ top_k) (_hmin : 0 ≤ min_similarity)
    (hq : pySplit (strToLower query) ≠ []) :
    ∃ l, (RAGManager.search_apis loader st query top_k min_similarity).2 = Except.ok l ∧
      l.length ≤ top_k.toNat ∧
      List.Pairwise scoreGE l ∧
      (∀ r ∈ l, min_similarity ≤ r.similarity_score) ∧
      (l.map (fun r => r.api_doc.api_name)).Nodup := by
  by_cases hempty : st.api_docs.isEmpty = true
  · refine ⟨[], ?_, by simp, by simp, by simp, by simp⟩
    rw [RAGManager.search_apis, if_pos hempty]
  · have hne : st.api_docs.isEmpty = false := by simpa using hempty
    obtain ⟨ctx, hctx⟩ := contextScan_ok (strToLower query) (pySplit (strToLower query))
      (RAGManager.semantic_search loader st query (top_k * 2)).1.api_docs hq
    rw [search_apis_ok_form loader st query top_k min_similarity ctx hne hctx]
    obtain ⟨h1, h2, h3, h4⟩ := fused_output_props min_similarity
      ((RAGManager.semantic_search loader st query (top_k * 2)).2 ++
        RAGManager.keyword_search (RAGManager.semantic_search loader st query (top_k * 2)).1
          query top_k ++
        pySlice top_k (sortDesc ctx)) top_k htk
    exact ⟨_, rfl, h1, h2, h3, h4⟩

/-- Witness for `search_apis_contract` at a concrete corpus, query
`alpha`, `top_k = 5`, `min_similarity = 3/10`. -/
theorem search_apis_contract_witness :
    ∃ l, (RAGManager.search_apis none exStC1w "alpha" 5 (mkRat 3 10)).2 = Except.ok l ∧
      l.length ≤ (5 : ℤ).toNat ∧
      List.Pairwise scoreGE l ∧
      (∀ r ∈ l, mkRat 3 10 ≤ r.similarity_score) ∧
      (l.map (fun r => r.api_doc.api_name)).Nodup :=
  search_apis_contract none exStC1w "alpha" 5 (mkRat 3 10) (by decide) (by decide) (by decide)

/-! ## Claim C2 -/

/-- Corpus for the C2 counterexample: one document `alpha` whose embedding
`[7, 24]` has norm 25, so its semantic score against query embedding
`[1, 0]` is `7/25 = 0.28`, just below `min_similarity = 3/10`. -/
def exStC2 : RAGManager :=
  { api_docs := [mkDoc "alpha" "" "" "" [] (some [7, 24])], embedding_model := none,
    embedding_cache := emptyCache }

/-- Claim C2, counterexample: the document appears in the semantic
candidate list (score `7/25`) and in the keyword candidate list (score
`1`); with `min_similarity = 3/10` the fused output reports it with its
KEYWORD score `1`, not its semantic score — because the rejected semantic
entry is not recorded as seen, the filter and the deduplication being one
interleaved pass (under the claim's dedup-then-filter order the document
would have been dropped entirely). -/
theorem search_apis_keyword_beats_low_semantic :
    (RAGManager.semantic_search (some (fun _ => [1, 0])) exStC2 "alpha beta" 10).2 =
      [⟨mkDoc "alpha" "" "" "" [] (some [7, 24]), mkRat 7 25, "semantic"⟩] ∧
    RAGManager.keyword_search exStC2 "alpha beta" 5 =
      [⟨mkDoc "alpha" "" "" "" [] (some [7, 24]), 1, "keyword"⟩] ∧
    mkRat 7 25 < mkRat 3 10 ∧
    (RAGManager.search_apis (some (fun _ => [1, 0])) exStC2 "alpha beta" 5 (mkRat 3 10)).2 =
      Except.ok [⟨mkDoc "alpha" "" "" "" [] (some [7, 24]), 1, "keyword"⟩] :=
  ⟨by decide, by decide, by decide, by decide⟩

/-- Claim C2 (amended): fusion deduplicates and filters in a single
interleaved pass (a candidate is kept iff its score is `≥ min_similarity`
and no previously KEPT candidate carries its `api_name`; a rejected
candidate does not block its name).  Consequently a document that appears
in both the semantic and keyword candidate lists is reported with its
semantic score PROVIDED that semantic score itself passes
`min_similarity` (semantic candidates come first): the first
threshold-passing semantic entry of a given name survives into the fused
unique set.  When the semantic score is below the threshold, a later
(e.g. keyword) entry can be reported instead — see
`search_apis_keyword_beats_low_semantic`. -/
theorem search_apis_semantic_entry_kept (loader : Option (String → List ℚ))
    (st : RAGManager) (query : String) (top_k : ℤ) (m : ℚ)
    (e : SearchResult) (s1 s2 : List SearchResult)
    (hne : st.api_docs.isEmpty = false)
    (hq : pySplit (strToLower query) ≠ [])
    (hsem : (RAGManager.semantic_search loader st query (top_k * 2)).2 = s1 ++ e :: s2)
    (hfirst : ∀ x ∈ s1, x.api_doc.api_name = e.api_doc.api_name →
      x.similarity_score < m)
    (hpass : m ≤ e.similarity_score) :
    ∃ ctx, contextScan (strToLower query) (pySplit (strToLower query))
        (RAGManager.semantic_search loader st query (top_k * 2)).1.api_docs =
        Except.ok ctx ∧
      e ∈ fuseResults m
        ((RAGManager.semantic_search loader st query (top_k * 2)).2 ++
         RAGManager.keyword_search (RAGManager.semantic_search loader st query (top_k * 2)).1
           query top_k ++
         pySlice top_k (sortDesc ctx)) [] ∧
      (RAGManager.search_apis loader st query top_k m).2 =
        Except.ok (pySlice top_k (sortDesc (fuseResults m
          ((RAGManager.semantic_search loader st query (top_k * 2)).2 ++
           RAGManager.keyword_search (RAGManager.semantic_search loader st query (top_k * 2)).1
             query top_k ++
           pySlice top_k (sortDesc ctx)) []))) := by
  obtain ⟨ctx, hctx⟩ := contextScan_ok (strToLower query) (pySplit (strToLower query))
    (RAGManager.semantic_search loader st query (top_k * 2)).1.api_docs hq
  refine ⟨ctx, hctx, ?_, by rw [search_apis_ok_form loader st query top_k m ctx hne hctx]⟩
  rw [hsem]
  have hassoc : (s1 ++ e :: s2) ++
      RAGManager.keyword_search (RAGManager.semantic_search loader st query (top_k * 2)).1
        query top_k ++ pySlice top_k (sortDesc ctx) =
      s1 ++ e :: (s2 ++
        RAGManager.keyword_search (RAGManager.semantic_search loader st query (top_k * 2)).1
          query top_k ++ pySlice top_k (sortDesc ctx)) := by
    simp [List.append_assoc]
  rw [hassoc]
  exact fuse_keeps_first_passing m e s1 _ [] (by simp) hfirst hpass

/-- Corpus for the C2 witness: document `alpha` with embedding `[3, 4]`
(norm 5); the query embedding is also `[3, 4]`, so the semantic score is
`25/25 = 1`, above the threshold. -/
def exStC2w : RAGManager :=
  { api_docs := [mkDoc "alpha" "" "" "" [] (some [3, 4])], embedding_model := none,
    embedding_cache := emptyCache }

/-- Witness for `search_apis_semantic_entry_kept`: the passing semantic
entry for `alpha` (score 1) survives fusion. -/
theorem search_apis_semantic_entry_kept_witness :
    ∃ ctx, contextScan (strToLower "alpha") (pySplit (strToLower "alpha"))
        (RAGManager.semantic_search (some (fun _ => [3, 4])) exStC2w "alpha"
          ((5 : ℤ) * 2)).1.api_docs = Except.ok ctx ∧
      (⟨mkDoc "alpha" "" "" "" [] (some [3, 4]), 1, "semantic"⟩ : SearchResult) ∈ fuseResults
        (mkRat 3 10)
        ((RAGManager.semantic_search (some (fun _ => [3, 4])) exStC2w "alpha" ((5 : ℤ) * 2)).2 ++
         RAGManager.keyword_search
           (RAGManager.semantic_search (some (fun _ => [3, 4])) exStC2w "alpha" ((5 : ℤ) * 2)).1
           "alpha" 5 ++
         pySlice 5 (sortDesc ctx)) [] ∧
      (RAGManager.search_apis (some (fun _ => [3, 4])) exStC2w "alpha" 5 (mkRat 3 10)).2 =
        Except.ok (pySlice 5 (sortDesc (fuseResults (mkRat 3 10)
          ((RAGManager.semantic_search (some (fun _ => [3, 4])) exStC2w "alpha"
             ((5 : ℤ) * 2)).2 ++
           RAGManager.keyword_search
             (RAGManager.semantic_search (some (fun _ => [3, 4])) exStC2w "alpha"
               ((5 : ℤ) * 2)).1 "alpha" 5 ++
           pySlice 5 (sortDesc ctx)) []))) :=
  search_apis_semantic_entry_kept (some (fun _ => [3, 4])) exStC2w "alpha" 5 (mkRat 3 10)
    ⟨mkDoc "alpha" "" "" "" [] (some [3, 4]), 1, "semantic"⟩ [] []
    (by decide) (by decide) (by decide) (by simp) (by decide)

/-! ## Claim C3 -/

/-- Corpus for C3: one document with a non-empty usage context. -/
def exStC3 : RAGManager :=
  { api_docs := [mkDoc "m" "" "" "uctx" [] none], embedding_model := none,
    embedding_cache := emptyCache }

/-- Claim C3 (the spec is right, the code is wrong): for an empty-token
query the keyword strategy indeed yields no matches (its division is
guarded by `matches > 0`), but the context strategy hits
`score = ... / len(query_lower.split())` with a zero denominator — the
empty query string is a substring of every usage context, so every
document satisfies the candidate condition — and `search_apis` propagates
the `ZeroDivisionError` instead of returning normally. -/
theorem context_search_empty_query_division :
    RAGManager.keyword_search exStC3 "" 5 = [] ∧
    RAGManager.context_search exStC3 "" 5 = Except.error "ZeroDivisionError" ∧
    (RAGManager.search_apis none exStC3 "" 5 (mkRat 3 10)).2 =
      Except.error "ZeroDivisionError" :=
  ⟨by decide, by decide, by decide⟩

/-! ## Claim C4 -/

/-- Corpus for C4: one document whose embedding is the zero vector. -/
def exStC4 : RAGManager :=
  { api_docs := [mkDoc "z" "" "" "" [] (some [0])], embedding_model := none,
    embedding_cache := emptyCache }

/-- Claim C4, counterexample to the skip clause: the document whose
embedding is the zero vector (norm exactly 0) still yields a semantic
result — the strategy emits one entry for it instead of skipping, so the
division by zero does occur (numpy produces nan under a warning; the
model's junk value for a zero denominator is 0). -/
theorem semantic_zero_norm_not_skipped :
    normQ [(0 : ℚ)] = 0 ∧
    ((RAGManager.semantic_search (some (fun _ => [1])) exStC4 "q" 4).2).length = 1 :=
  ⟨by decide, by decide⟩

/-- Claim C4 (amended): for every available embedding function and every
document with a precomputed embedding, the semantic strategy scores it by
the cosine formula `cosineSimilaritySpec` (dot product divided by the
product of the two vector norms) — but with NO zero-norm guard: the entry
is emitted for every embedded document, zero norms included (the spec's
"skipped" clause does not hold; see `semantic_zero_norm_not_skipped`). -/
theorem semantic_candidates_cosine (qe : List ℚ) (docs : List APIDocEntry)
    (d : APIDocEntry) (e : List ℚ) (hd : d ∈ docs) (he : d.embedding = some e) :
    (⟨d, cosineSimilaritySpec qe e, "semantic"⟩ : SearchResult) ∈
      semanticCandidates qe docs := by
  induction docs with
  | nil => cases hd
  | cons x xs ih =>
    cases hd with
    | head =>
      rw [semanticCandidates, he]
      exact List.mem_cons_self _ _
    | tail _ hd2 =>
      rw [semanticCandidates]
      cases hx : x.embedding with
      | none => exact ih hd2
      | some ex => exact List.mem_cons_of_mem _ (ih hd2)

/-- Witness for `semantic_candidates_cosine` on the zero-vector document:
the entry is emitted even though the document norm is zero. -/
theorem semantic_candidates_cosine_witness :
    (⟨mkDoc "z" "" "" "" [] (some [0]), cosineSimilaritySpec [(1 : ℚ)] [(0 : ℚ)],
      "semantic"⟩ : SearchResult) ∈ semanticCandidates [(1 : ℚ)] exStC4.api_docs :=
  semantic_candidates_cosine [(1 : ℚ)] exStC4.api_docs (mkDoc "z" "" "" "" [] (some [0]))
    [(0 : ℚ)] (by decide) (by decide)

/-! ## Claim C5 -/

/-- Corpus for C5: one document matching the query `alpha` by keyword;
no embeddings, model never loadable. -/
def exStC5 : RAGManager :=
  { api_docs := [mkDoc "alpha" "" "" "" [] none], embedding_model := none,
    embedding_cache := emptyCache }

/-- A result in a successful context scan forces the query token list to
be non-empty (an empty-token query either matches no document or raises
before producing results). -/
theorem contextScan_mem_tokens (qlow : String) (qtoks : List String)
    (docs : List APIDocEntry) (res : List SearchResult) (r : SearchResult)
    (hok : contextScan qlow qtoks docs = Except.ok res) (hr : r ∈ res) : qtoks ≠ [] := by
  induction docs generalizing res with
  | nil =>
    rw [contextScan] at hok
    injection hok with h
    subst h
    exact absurd hr (List.not_mem_nil r)
  | cons d rest ih =>
    rw [contextScan] at hok
    split at hok
    · split at hok
      next => exact Except.noConfusion hok
      next hlen =>
        intro hnil
        exact hlen (by rw [hnil]; rfl)
    · exact ih res hok hr

/-- An empty corpus gives the context strategy an empty (successful)
result. -/
theorem context_search_nil_docs (st : RAGManager) (query : String) (top_k : ℤ)
    (h : st.api_docs = []) :
    RAGManager.context_search st query top_k = Except.ok [] := by
  rw [RAGManager.context_search, h]
  simp [contextScan, Except.map, sortDesc, pySlice]

/-- Claim C5: if the embedding provider is unavailable (the model is not
loaded and loading fails), the semantic strategy returns an empty
candidate list and `search_apis` still returns normally with the keyword
and context strategies' results — in particular a non-empty result list
whenever some keyword or context candidate passes the threshold and
`top_k ≥ 1`. -/
theorem search_apis_degrades_without_provider (st : RAGManager) (query : String)
    (top_k : ℤ) (m : ℚ) (r : SearchResult)
    (hm : st.embedding_model = none)
    (hr : r ∈ RAGManager.keyword_search st query top_k ∨
      ∃ cres, RAGManager.context_search st query top_k = Except.ok cres ∧ r ∈ cres)
    (hpass : m ≤ r.similarity_score)
    (htk : 1 ≤ top_k) :
    (RAGManager.semantic_search none st query (top_k * 2)).2 = [] ∧
    ∃ l, (RAGManager.search_apis none st query top_k m).2 = Except.ok l ∧ l ≠ [] := by
  have hsem := semantic_search_unavailable st query (top_k * 2) hm
  refine ⟨by rw [hsem], ?_⟩
  have hq : pySplit (strToLower query) ≠ [] := by
    rcases hr with hk | ⟨cres, hcs, hrc⟩
    · exact keyword_search_token_nonempty st query top_k r hk
    · rw [RAGManager.context_search] at hcs
      cases h0 : contextScan (strToLower query) (pySplit (strToLower query))
          st.api_docs with
      | error e => rw [h0] at hcs; exact Except.noConfusion hcs
      | ok res0 =>
        rw [h0] at hcs
        simp only [Except.map] at hcs
        injection hcs with hcs2
        rw [← hcs2] at hrc
        have hr0 : r ∈ res0 :=
          (sortDesc_perm res0).mem_iff.mp ((pySlice_sublist top_k _).subset hrc)
        exact contextScan_mem_tokens _ _ _ _ r h0 hr0
  have hne : st.api_docs.isEmpty = false := by
    rcases h : st.api_docs with _ | ⟨d, ds⟩
    · exfalso
      rcases hr with hk | ⟨cres, hcs, hrc⟩
      · exact keyword_search_docs_nonempty st query top_k r hk h
      · rw [context_search_nil_docs st query top_k h] at hcs
        injection hcs with hcs2
        rw [← hcs2] at hrc
        exact absurd hrc (List.not_mem_nil r)
    · simp [h]
  obtain ⟨ctx, hctx⟩ := contextScan_ok (strToLower query) (pySplit (strToLower query))
    (RAGManager.semantic_search none st query (top_k * 2)).1.api_docs hq
  rw [search_apis_ok_form none st query top_k m ctx hne hctx]
  refine ⟨_, rfl, ?_⟩
  apply pySlice_ne_nil top_k htk
  intro hnil
  have hperm := sortDesc_perm (fuseResults m
    ((RAGManager.semantic_search none st query (top_k * 2)).2 ++
     RAGManager.keyword_search (RAGManager.semantic_search none st query (top_k * 2)).1
       query top_k ++
     pySlice top_k (sortDesc ctx)) [])
  rw [hnil] at hperm
  have hu := hperm.symm.eq_nil
  have hrBIG : r ∈ (RAGManager.semantic_search none st query (top_k * 2)).2 ++
      RAGManager.keyword_search (RAGManager.semantic_search none st query (top_k * 2)).1
        query top_k ++
      pySlice top_k (sortDesc ctx) := by
    rcases hr with hk | ⟨cres, hcs, hrc⟩
    · rw [hsem]
      exact List.mem_append_left _ (List.mem_append_right _ hk)
    · have hdocs : (RAGManager.semantic_search none st query (top_k * 2)).1.api_docs =
          st.api_docs := by rw [hsem]
      rw [hdocs] at hctx
      rw [RAGManager.context_search, hctx] at hcs
      simp only [Except.map] at hcs
      injection hcs with hcs2
      rw [← hcs2] at hrc
      exact List.mem_append_right _ hrc
  rcases fuse_eq_nil_all_fail m _ [] hu r hrBIG with h1 | h1
  · exact absurd h1 (List.not_mem_nil _)
  · exact absurd hpass (not_le.mpr h1)

/-- Witness for `search_apis_degrades_without_provider`: query `alpha`
against `exStC5` with the provider unavailable still returns a non-empty
list via the keyword strategy. -/
theorem search_apis_degrades_without_provider_witness :
    (RAGManager.semantic_search none exStC5 "alpha" ((5 : ℤ) * 2)).2 = [] ∧
    ∃ l, (RAGManager.search_apis none exStC5 "alpha" 5 (mkRat 1 2)).2 = Except.ok l ∧
      l ≠ [] :=
  search_apis_degrades_without_provider exStC5 "alpha" 5 (mkRat 1 2)
    ⟨mkDoc "alpha" "" "" "" [] none, 2, "keyword"⟩ rfl (Or.inl (by decide)) (by decide)
    (by decide)

/-! ## Claim C6 -/

/-- Corpus for C6: three documents all matching the query `alpha` by
keyword, with scores 2, 1, 1. -/
def exStC6 : RAGManager :=
  { api_docs := [mkDoc "alpha" "" "" "" [] none, mkDoc "beta" "alpha x" "" "" [] none,
      mkDoc "gamma" "alpha y" "" "" [] none],
    embedding_model := none, embedding_cache := emptyCache }

/-- Claim C6, counterexample: with `top_k = -1` the call does NOT fail
with a validation error — it returns a result list computed with Python
slice semantics (each strategy list and the final ranking lose their last
element: of the three keyword matches, two survive the strategy's own
`[:-1]`, one survives the final `[:-1]`). -/
theorem search_apis_negative_topk_returns :
    (RAGManager.search_apis none exStC6 "alpha" (-1) 0).2 =
      Except.ok [⟨mkDoc "alpha" "" "" "" [] none, 2, "keyword"⟩] := by decide

/-- Claim C6 (amended): `search_apis` performs no validation of `top_k`; a
negative `top_k` is interpreted with Python slice semantics, so the call
returns a result list (empty corpus: the empty list; otherwise all but
the last `|top_k|` of the ranked unique results —
`(unique_count + top_k).toNat` many). -/
theorem search_apis_negative_topk_slice (loader : Option (String → List ℚ))
    (st : RAGManager) (query : String) (top_k : ℤ) (m : ℚ)
    (hq : pySplit (strToLower query) ≠ []) (hneg : top_k < 0) :
    (st.api_docs.isEmpty = true →
      (RAGManager.search_apis loader st query top_k m).2 = Except.ok []) ∧
    (st.api_docs.isEmpty = false →
      ∃ ctx, contextScan (strToLower query) (pySplit (strToLower query))
          (RAGManager.semantic_search loader st query (top_k * 2)).1.api_docs =
          Except.ok ctx ∧
        (RAGManager.search_apis loader st query top_k m).2 =
          Except.ok (pySlice top_k (sortDesc (fuseResults m
            ((RAGManager.semantic_search loader st query (top_k * 2)).2 ++
             RAGManager.keyword_search
               (RAGManager.semantic_search loader st query (top_k * 2)).1 query top_k ++
             pySlice top_k (sortDesc ctx)) []))) ∧
        (pySlice top_k (sortDesc (fuseResults m
            ((RAGManager.semantic_search loader st query (top_k * 2)).2 ++
             RAGManager.keyword_search
               (RAGManager.semantic_search loader st query (top_k * 2)).1 query top_k ++
             pySlice top_k (sortDesc ctx)) []))).length =
          (((fuseResults m
            ((RAGManager.semantic_search loader st query (top_k * 2)).2 ++
             RAGManager.keyword_search
               (RAGManager.semantic_search loader st query (top_k * 2)).1 query top_k ++
             pySlice top_k (sortDesc ctx)) []).length : ℤ) + top_k).toNat) := by
  constructor
  · intro hempty
    rw [RAGManager.search_apis, if_pos hempty]
  · intro hne
    obtain ⟨ctx, hctx⟩ := contextScan_ok (strToLower query) (pySplit (strToLower query))
      (RAGManager.semantic_search loader st query (top_k * 2)).1.api_docs hq
    refine ⟨ctx, hctx, by rw [search_apis_ok_form loader st query top_k m ctx hne hctx], ?_⟩
    rw [pySlice_length_neg top_k hneg, (sortDesc_perm _).length_eq]

/-- Witness for `search_apis_negative_topk_slice` at `exStC6`,
`top_k = -1`. -/
theorem search_apis_negative_topk_slice_witness :
    (exStC6.api_docs.isEmpty = true →
      (RAGManager.search_apis none exStC6 "alpha" (-1) 0).2 = Except.ok []) ∧
    (exStC6.api_docs.isEmpty = false →
      ∃ ctx, contextScan (strToLower "alpha") (pySplit (strToLower "alpha"))
          (RAGManager.semantic_search none exStC6 "alpha" ((-1 : ℤ) * 2)).1.api_docs =
          Except.ok ctx ∧
        (RAGManager.search_apis none exStC6 "alpha" (-1) 0).2 =
          Except.ok (pySlice (-1) (sortDesc (fuseResults 0
            ((RAGManager.semantic_search none exStC6 "alpha" ((-1 : ℤ) * 2)).2 ++
             RAGManager.keyword_search
               (RAGManager.semantic_search none exStC6 "alpha" ((-1 : ℤ) * 2)).1 "alpha"
               (-1) ++
             pySlice (-1) (sortDesc ctx)) []))) ∧
        (pySlice (-1) (sortDesc (fuseResults 0
            ((RAGManager.semantic_search none exStC6 "alpha" ((-1 : ℤ) * 2)).2 ++
             RAGManager.keyword_search
               (RAGManager.semantic_search none exStC6 "alpha" ((-1 : ℤ) * 2)).1 "alpha"
               (-1) ++
             pySlice (-1) (sortDesc ctx)) []))).length =
          (((fuseResults 0
            ((RAGManager.semantic_search none exStC6 "alpha" ((-1 : ℤ) * 2)).2 ++
             RAGManager.keyword_search
               (RAGManager.semantic_search none exStC6 "alpha" ((-1 : ℤ) * 2)).1 "alpha"
               (-1) ++
             pySlice (-1) (sortDesc ctx)) []).length : ℤ) + (-1)).toNat) :=
  search_apis_negative_topk_slice none exStC6 "alpha" (-1) 0 (by decide) (by decide)

/-! ## Claim C7 -/

theorem lookupAssoc_replaceOrAppend (l : List (String × List ℚ)) (k : String) (v : List ℚ) :
    lookupAssoc (replaceOrAppend l k v) k = some v := by
  induction l with
  | nil => simp [replaceOrAppend, lookupAssoc]
  | cons p rest ih =>
    obtain ⟨k0, v0⟩ := p
    rw [replaceOrAppend]
    by_cases hk : k0 = k
    · rw [if_pos hk, lookupAssoc, if_pos rfl]
    · rw [if_neg hk, lookupAssoc, if_neg hk]
      exact ih

/-- Claim C7: cache round trip — after `set(t, v)`, `get(t)` returns `v`
within the same process — and content addressing: the lookup key is
`md5(utf8(text))`, a function of the UTF-8 encoded text alone, so
identical text always derives the identical key no matter which document
or query produced it. -/
theorem cache_round_trip_content_addressed :
    (∀ (c : EmbeddingCache) (t : String) (v : List ℚ),
      EmbeddingCache.get (EmbeddingCache.set c t v) t = some v) ∧
    (∀ t1 t2 : String, utf8Bytes t1 = utf8Bytes t2 →
      EmbeddingCache.get_cache_key t1 = EmbeddingCache.get_cache_key t2) := by
  constructor
  · intro c t v
    simp only [EmbeddingCache.set, EmbeddingCache.get]
    split
    · exact lookupAssoc_replaceOrAppend _ _ _
    · exact lookupAssoc_replaceOrAppend _ _ _
  · intro t1 t2 h
    rw [EmbeddingCache.get_cache_key, EmbeddingCache.get_cache_key, h]

/-- Witness for `cache_round_trip_content_addressed`. -/
theorem cache_round_trip_content_addressed_witness :
    EmbeddingCache.get (EmbeddingCache.set emptyCache "alpha" [1]) "alpha" = some [1] ∧
    EmbeddingCache.get_cache_key "q" = EmbeddingCache.get_cache_key "q" :=
  ⟨cache_round_trip_content_addressed.1 emptyCache "alpha" [1],
   cache_round_trip_content_addressed.2 "q" "q" rfl⟩

/-! ## Claim C8 -/

/-- Ten consecutive `set` calls all re-writing the same text `t`: the dict
size stays 1 throughout. -/
def tenSameKeySets : EmbeddingCache :=
  EmbeddingCache.set (EmbeddingCache.set (EmbeddingCache.set (EmbeddingCache.set
    (EmbeddingCache.set (EmbeddingCache.set (EmbeddingCache.set (EmbeddingCache.set
      (EmbeddingCache.set (EmbeddingCache.set emptyCache "t" [1]) "t" [2]) "t" [3])
        "t" [4]) "t" [5]) "t" [6]) "t" [7]) "t" [8]) "t" [9]) "t" [10]

/-- Claim C8, counterexample: after ten insertions (all on the same key)
starting from an empty cache, nothing has been flushed to durable storage
— the flush condition is on the dict SIZE (`len(cache) % 10 == 0`), not on
an insertion counter, and the size stays 1. -/
theorem cache_ten_sets_no_flush :
    tenSameKeySets.persisted = [] ∧ tenSameKeySets.cache.length = 1 :=
  ⟨by decide, by decide⟩

/-- Claim C8 (amended): a `set` flushes to durable storage exactly when the
UPDATED dict's size is a multiple of 10 (when every `set` adds a fresh key
starting from an empty cache this is every 10th insertion, leaving at most
9 new entries unpersisted — but overwriting `set`s leave the size
unchanged, so arbitrarily many insertions can go unflushed, see
`cache_ten_sets_no_flush`); an explicit `save()` always forces the
durable write. -/
theorem cache_flush_policy :
    (∀ (c : EmbeddingCache) (t : String) (v : List ℚ),
      (EmbeddingCache.set c t v).cache =
        replaceOrAppend c.cache (EmbeddingCache.get_cache_key t) v ∧
      (EmbeddingCache.set c t v).persisted =
        (if (EmbeddingCache.set c t v).cache.length % 10 = 0
         then (EmbeddingCache.set c t v).cache else c.persisted)) ∧
    (∀ c : EmbeddingCache, (EmbeddingCache.save c).persisted = c.cache ∧
      (EmbeddingCache.save c).cache = c.cache) := by
  constructor
  · intro c t v
    simp only [EmbeddingCache.set]
    split
    next h => simp [h]
    next h => simp [h]
  · intro c
    exact ⟨rfl, rfl⟩

/-! ## Claim C9 -/

theorem relatedScan_eq_filterMap (st : RAGManager) (names : List String) :
    relatedScan st names = names.filterMap (RAGManager.get_api_by_name st) := by
  induction names with
  | nil => rfl
  | cons n rest ih =>
    rw [relatedScan, List.filterMap_cons]
    cases h : RAGManager.get_api_by_name st n with
    | none => simpa using ih
    | some d => simp [ih]

/-- Claim C9: `get_related_apis` resolves each identifier in the
document's related list via exact (first-match) lookup and returns exactly
the documents that resolve, in list order, silently dropping identifiers
that do not resolve (`filterMap`); when the starting identifier itself is
unknown the result is the empty list. -/
theorem get_related_apis_resolves :
    (∀ (st : RAGManager) (x : String), RAGManager.get_api_by_name st x = none →
      RAGManager.get_related_apis st x = []) ∧
    (∀ (st : RAGManager) (x : String) (d : APIDocEntry),
      RAGManager.get_api_by_name st x = some d →
      RAGManager.get_related_apis st x =
        d.related_apis.filterMap (RAGManager.get_api_by_name st)) := by
  constructor
  · intro st x h
    rw [RAGManager.get_related_apis, h]
  · intro st x d h
    rw [RAGManager.get_related_apis, h]
    exact relatedScan_eq_filterMap st d.related_apis

/-- Document `X`, whose related list has one valid (`A`) and one broken
(`ZZ`) reference. -/
def docX : APIDocEntry := mkDoc "X" "" "" "" ["A", "ZZ"] none

/-- Document `A`, the resolvable related document. -/
def docA : APIDocEntry := mkDoc "A" "" "" "" [] none

/-- Corpus for the C9 witness. -/
def exStC9 : RAGManager :=
  { api_docs := [docX, docA], embedding_model := none, embedding_cache := emptyCache }

/-- Witness for `get_related_apis_resolves`: `X`'s related list `[A, ZZ]`
resolves to exactly one document (`A`), and an unknown identifier yields
`[]`. -/
theorem get_related_apis_resolves_witness :
    RAGManager.get_related_apis exStC9 "X" =
      docX.related_apis.filterMap (RAGManager.get_api_by_name exStC9) ∧
    docX.related_apis.filterMap (RAGManager.get_api_by_name exStC9) = [docA] ∧
    RAGManager.get_related_apis exStC9 "nope" = [] :=
  ⟨get_related_apis_resolves.2 exStC9 "X" docX (by decide),
   by decide,
   get_related_apis_resolves.1 exStC9 "nope" (by decide)⟩

/-! ## Claim C10 -/

theorem semantic_search_fst (loader : Option (String → List ℚ)) (st : RAGManager)
    (query : String) (k : ℤ) :
    (RAGManager.semantic_search loader st query k).1 =
      RAGManager.init_embedding_model loader st := by
  simp only [RAGManager.semantic_search]
  cases h2 : (RAGManager.init_embedding_model loader st).embedding_model with
  | none => simp [h2]
  | some f => simp [h2]

/-- Claim C10: `search_apis` and the strategy helpers leave the loaded
document store and the embedding cache unchanged — the document list and
the cache's key-to-vector mapping (and its persisted copy) are identical
before and after the call; only the lazily-initialized `embedding_model`
field may change.  In particular the query embedding computed by the
semantic strategy is never inserted into the cache.  (`_keyword_search`
and `_context_search` contain no state writes in the source and are
modelled as pure functions of the state.) -/
theorem search_apis_frame (loader : Option (String → List ℚ)) (st : RAGManager)
    (query : String) (top_k : ℤ) (m : ℚ) :
    (RAGManager.search_apis loader st query top_k m).1.api_docs = st.api_docs ∧
    (RAGManager.search_apis loader st query top_k m).1.embedding_cache =
      st.embedding_cache ∧
    (RAGManager.semantic_search loader st query top_k).1.api_docs = st.api_docs ∧
    (RAGManager.semantic_search loader st query top_k).1.embedding_cache =
      st.embedding_cache := by
  obtain ⟨hd, hc⟩ := init_embedding_model_fields loader st
  have hsa : (RAGManager.search_apis loader st query top_k m).1 = st ∨
      (RAGManager.search_apis loader st query top_k m).1 =
        RAGManager.init_embedding_model loader st := by
    rw [RAGManager.search_apis]
    split
    · exact Or.inl rfl
    · split <;> exact Or.inr (semantic_search_fst loader st query (top_k * 2))
  refine ⟨?_, ?_, by rw [semantic_search_fst loader st query top_k, hd],
    by rw [semantic_search_fst loader st query top_k, hc]⟩
  · rcases hsa with h | h
    · rw [h]
    · rw [h, hd]
  · rcases hsa with h | h
    · rw [h]
    · rw [h, hc]
